import Mathlib

set_option maxHeartbeats 1000000

namespace CM

/-- Bytes of a stored object or of a request body, as a list of naturals. -/
abbrev Bytes := List Nat

/-- Error taxonomy of the core, per spec section 7: backend NotFound, backend
transient failure, undecodable package content (repo.ErrorInvalidChartPackage),
and other plain errors carried as text. -/
inductive Err where
  | notFound
  | transient
  | invalidChartPackage
  | other (msg : String)
deriving DecidableEq, Repr

/-- Modelled from the spec: storage.Object from the storage package (absent
from src): a listed blob with its path, content bytes and identity meta. -/
structure Object where
  path : String
  content : Bytes
  meta : Nat
deriving DecidableEq, Repr

/-- Go strings.HasSuffix on the underlying character lists. -/
def goHasSuffix (s pat : String) : Bool :=
  pat.data.isSuffixOf s.data

/-- Modelled from the spec: the Storage Backend interface of section 4.2
(absent from src). The store is the current listing; the Fail fields inject
backend failures for particular paths, standing for the failure behaviour of
a real driver. -/
structure Backend where
  store : List Object
  getFail : String → Option Err
  putFail : String → Option Err
  delFail : String → Option Err
  listFail : Option Err

/-- Modelled from the spec: ListObjects returns the whole listing or fails. -/
def listObjects (b : Backend) : Except Err (List Object) :=
  match b.listFail with
  | some e => .error e
  | none => .ok b.store

/-- Modelled from the spec: GetObject returns content and meta, failing with
NotFound when the path is absent and with the injected error otherwise. -/
def getObject (b : Backend) (path : String) : Except Err Object :=
  match b.getFail path with
  | some e => .error e
  | none =>
    match b.store.find? (fun o => o.path == path) with
    | some o => .ok o
    | none => .error .notFound

/-- A concrete content hash giving stored objects their identity meta. -/
def hashBytes (c : Bytes) : Nat :=
  c.foldl (fun a x => a * 31 + x + 1) 7

/-- Create or overwrite the object at a path inside a listing. -/
def putStore (store : List Object) (o : Object) : List Object :=
  if store.any (fun x => x.path == o.path) then
    store.map (fun x => if x.path == o.path then o else x)
  else store ++ [o]

/-- Modelled from the spec: PutObject creates or overwrites, or fails with
the injected transient error. -/
def putObject (b : Backend) (path : String) (content : Bytes) : Except Err Backend :=
  match b.putFail path with
  | some e => .error e
  | none => .ok { b with store := putStore b.store ⟨path, content, hashBytes content⟩ }

/-- Modelled from the spec: DeleteObject removes the object, failing with
NotFound when absent. -/
def deleteObject (b : Backend) (path : String) : Except Err Backend :=
  match b.delFail path with
  | some e => .error e
  | none =>
    if b.store.any (fun o => o.path == path) then
      .ok { b with store := b.store.filter (fun o => !(o.path == path)) }
    else .error .notFound

/-- A chart version record as far as the core inspects it: its identity. -/
structure ChartVersion where
  name : String
  version : String
deriving DecidableEq, Repr

/-- Length-tagged byte encoding of a string, used by the index serializer. -/
def encodeString (s : String) : Bytes :=
  s.length :: s.data.map Char.toNat

/-- Modelled from the spec: the index serializer behind Index.Regenerate
(section 4.4, absent from src); a concrete encoding standing for the on-disk
textual form. It is never empty, as the textual form of even an empty index
is not empty. -/
def serializeEntries (entries : List (String × List ChartVersion)) : Bytes :=
  1 :: entries.foldr (fun p acc =>
    encodeString p.1 ++
      p.2.foldr (fun cv a => encodeString cv.name ++ encodeString cv.version ++ a) [] ++ acc) []

/-- Modelled from the spec: repo.Index (absent from src): entries mapping a
name to its versions, the cached raw serialization, and the chart URL. -/
structure Index where
  entries : List (String × List ChartVersion)
  raw : Bytes
  chartURL : String
deriving DecidableEq, Repr

/-- Insert or replace a version inside the version list of one name. -/
def insertVersion (vs : List ChartVersion) (cv : ChartVersion) : List ChartVersion :=
  if vs.any (fun v => v.version == cv.version) then
    vs.map (fun v => if v.version == cv.version then cv else v)
  else cv :: vs

/-- Modelled from the spec: Index.AddEntry (section 4.4): inserts or replaces
the entry at (name, version) and clears raw. The semver order inside a name
is kept abstract: a new version goes first. -/
def Index.addEntry (i : Index) (cv : ChartVersion) : Index :=
  if i.entries.any (fun p => p.1 == cv.name) then
    { i with
      entries := i.entries.map (fun p =>
        if p.1 == cv.name then (p.1, insertVersion p.2 cv) else p),
      raw := [] }
  else { i with entries := i.entries ++ [(cv.name, [cv])], raw := [] }

/-- Modelled from the spec: Index.RemoveEntry (section 4.4): removes the
(name, version) entry if present, drops a name whose last version goes, and
clears raw. -/
def Index.removeEntry (i : Index) (cv : ChartVersion) : Index :=
  { i with
    entries := (i.entries.map (fun p =>
      if p.1 == cv.name then (p.1, p.2.filter (fun v => !(v.version == cv.version))) else p)).filter
      (fun p => !p.2.isEmpty),
    raw := [] }

/-- Modelled from the spec: Index.UpdateEntry is semantically AddEntry. -/
def Index.updateEntry (i : Index) (cv : ChartVersion) : Index :=
  i.addEntry cv

/-- Modelled from the spec: Index.Regenerate rebuilds raw from entries. -/
def Index.regenerate (i : Index) : Index :=
  { i with raw := serializeEntries i.entries }

/-- The chart package file extension, repo.ChartPackageFileExtension. -/
def chartPackageFileExtension : String := "tgz"

/-- The provenance file extension, repo.ProvenanceFileExtension. -/
def provenanceFileExtension : String := "tgz.prov"

/-- Modelled from the spec: repo.ChartPackageFilenameFromNameVersion. -/
def chartPackageFilenameFromNameVersion (name version : String) : String :=
  name ++ "-" ++ version ++ "." ++ chartPackageFileExtension

/-- Modelled from the spec: repo.ProvenanceFilenameFromNameVersion. -/
def provenanceFilenameFromNameVersion (name version : String) : String :=
  name ++ "-" ++ version ++ "." ++ provenanceFileExtension

/-- Modelled from the spec: Object.HasExtension from the storage package
(absent from src): the path ends in a dot and the extension. -/
def hasExtension (o : Object) (ext : String) : Bool :=
  goHasSuffix o.path ("." ++ ext)

/-- Modelled from the spec: the Artifact Decoder interface of the repo
package (absent from src): decoding an object into a chart version, and
deriving canonical filenames from uploaded content. -/
structure Repo where
  chartVersionFromStorageObject : Object → Except Err ChartVersion
  chartPackageFilenameFromContent : Bytes → Except Err String
  provenanceFilenameFromContent : Bytes → Except Err String

/-- The Server state of handlers.go that the claims concern: the published
index, the backend, the storage cache, and the configuration the handlers
read. The cache lock is a no-op in this sequential embedding. -/
structure Server where
  repositoryIndex : Index
  backend : Backend
  storageCache : List Object
  allowOverwrite : Bool
  cacheRefreshPeriod : Nat
  chartPostFormFieldName : String
  provPostFormFieldName : String

/-- The response bodies the handlers emit. -/
inductive RespBody where
  | saved
  | deleted
  | notFoundMsg
  | badExtension
  | alreadyExists
  | errMsg (e : Err)
  | fileData (content : Bytes)
deriving DecidableEq, Repr

/-- An HTTP response: status code and body. -/
structure HResp where
  status : Nat
  body : RespBody
deriving DecidableEq, Repr

/-- The result of comparing two listings, storage.ObjectSliceDiff. -/
structure ObjectSliceDiff where
  change : Bool
  removed : List Object
  added : List Object
  updated : List Object
deriving DecidableEq, Repr

/-- Modelled from the spec: storage.GetObjectSliceDiff (section 4.1, absent
from src): compare two listings keyed by path, with meta deciding updated;
an updated entry carries the new object. -/
def getObjectSliceDiff (os1 os2 : List Object) : ObjectSliceDiff :=
  let removed := os1.filter (fun o => !(os2.any (fun n => n.path == o.path)))
  let added := os2.filter (fun o => !(os1.any (fun n => n.path == o.path)))
  let updated := os2.filter (fun n =>
    match os1.find? (fun o => o.path == n.path) with
    | some o => !(o.meta == n.meta)
    | none => false)
  { change := !(removed.isEmpty && added.isEmpty && updated.isEmpty),
    removed := removed, added := added, updated := updated }

/-- checkInvalidChartPackageError from handlers.go: absorb the invalid
package error (after a warn log), pass every other error through. -/
def checkInvalidChartPackageError (e : Err) : Option Err :=
  if e = .invalidChartPackage then none else some e

/-- getObjectChartVersion from handlers.go: when load is set, re-fetch the
object and treat empty content as an invalid package; then decode. -/
def getObjectChartVersion (r : Repo) (s : Server) (object : Object) (load : Bool) :
    Except Err ChartVersion :=
  if load then
    match getObject s.backend object.path with
    | .error e => .error e
    | .ok obj =>
      if obj.content.length = 0 then .error .invalidChartPackage
      else r.chartVersionFromStorageObject obj
  else r.chartVersionFromStorageObject object

/-- removeIndexObject from handlers.go: decode without re-fetch and remove
the entry; an invalid package is skipped. -/
def removeIndexObject (r : Repo) (s : Server) (index : Index) (object : Object) :
    Except Err Index :=
  match getObjectChartVersion r s object false with
  | .error e =>
    match checkInvalidChartPackageError e with
    | none => .ok index
    | some e => .error e
  | .ok cv => .ok (index.removeEntry cv)

/-- updateIndexObject from handlers.go: re-fetch, decode and update the
entry; an invalid package is skipped. -/
def updateIndexObject (r : Repo) (s : Server) (index : Index) (object : Object) :
    Except Err Index :=
  match getObjectChartVersion r s object true with
  | .error e =>
    match checkInvalidChartPackageError e with
    | none => .ok index
    | some e => .error e
  | .ok cv => .ok (index.updateEntry cv)

/-- addIndexObjectsAsync from handlers.go. The Go code declares an outer err
variable, but the short variable declaration inside the goroutine body
shadows it, so the outer err is never assigned: the function returns nil
after the workers finish, and a failed slot silently stays null. The
goroutines write disjoint slots, so the sequential model below is faithful
for every interleaving. -/
def addIndexObjectsAsync (r : Repo) (s : Server) (index : Index) (objects : List Object) :
    Except Err Index :=
  let loaded := objects.map (fun o =>
    match getObjectChartVersion r s o true with
    | .error _ => none
    | .ok cv => some cv)
  .ok (loaded.foldl (fun idx cv? =>
    match cv? with
    | none => idx
    | some cv => idx.addEntry cv) index)

/-- addChartPackage from handlers.go: append to the storage cache (the Go
code appends before decoding and does not undo the append on a decode
error), decode, and add the entry. -/
def addChartPackage (r : Repo) (s : Server) (object : Object) : Server × Option Err :=
  match getObjectChartVersion r s object false with
  | .error e =>
    match checkInvalidChartPackageError e with
    | none => ({ s with storageCache := s.storageCache ++ [object] }, none)
    | some e => ({ s with storageCache := s.storageCache ++ [object] }, some e)
  | .ok cv =>
    ({ s with storageCache := s.storageCache ++ [object],
              repositoryIndex := s.repositoryIndex.addEntry cv }, none)

/-- Remove the first cache entry with the given path, as the Go slice
surgery on the found position does. -/
def removeFirstByPath : List Object → String → List Object
  | [], _ => []
  | o :: os, p => if o.path == p then os else o :: removeFirstByPath os p

/-- removeChartPackage from handlers.go: find the first cached object with
the filename, remove its index entry, then remove it from the cache. -/
def removeChartPackage (r : Repo) (s : Server) (filename : String) : Server × Option Err :=
  match s.storageCache.find? (fun o => o.path == filename) with
  | none => (s, some (.other ("chart with filename " ++ filename ++ " not found")))
  | some obj =>
    match removeIndexObject r s s.repositoryIndex obj with
    | .error e => (s, some e)
    | .ok idx =>
      ({ s with repositoryIndex := idx,
                storageCache := removeFirstByPath s.storageCache filename }, none)

/-- The sequential processing of diff.removed inside the reconcile. -/
def removeLoop (r : Repo) (s : Server) : List Object → Index → Except Err Index
  | [], index => .ok index
  | o :: os, index =>
    match removeIndexObject r s index o with
    | .error e => .error e
    | .ok index => removeLoop r s os index

/-- The sequential processing of diff.updated inside the reconcile. -/
def updateLoop (r : Repo) (s : Server) : List Object → Index → Except Err Index
  | [], index => .ok index
  | o :: os, index =>
    match updateIndexObject r s index o with
    | .error e => .error e
    | .ok index => updateLoop r s os index

/-- listObjectsGetDiff from handlers.go: list, keep chart packages, and diff
against the storage cache. -/
def listObjectsGetDiff (s : Server) : Except Err (List Object × ObjectSliceDiff) :=
  match listObjects s.backend with
  | .error e => .error e
  | .ok allObjects =>
    .ok (allObjects.filter (fun o => hasExtension o chartPackageFileExtension),
         getObjectSliceDiff s.storageCache
           (allObjects.filter (fun o => hasExtension o chartPackageFileExtension)))

/-- regenerateRepositoryIndex from handlers.go: list and diff, build a
working index from the live one, apply removed, updated and added, then
regenerate and install index and cache together. Value semantics of the
working copy follow spec section 4.6 step 5 (repo.Index is absent from
src). -/
def regenerateRepositoryIndex (r : Repo) (s : Server) : Server × Option Err :=
  match listObjectsGetDiff s with
  | .error e => (s, some e)
  | .ok (objects, diff) =>
    match removeLoop r s diff.removed
        { entries := s.repositoryIndex.entries, raw := s.repositoryIndex.raw,
          chartURL := s.repositoryIndex.chartURL } with
    | .error e => (s, some e)
    | .ok index =>
      match updateLoop r s diff.updated index with
      | .error e => (s, some e)
      | .ok index =>
        match addIndexObjectsAsync r s index diff.added with
        | .error e => (s, some e)
        | .ok index =>
          ({ s with repositoryIndex := index.regenerate, storageCache := objects }, none)

/-- syncRepositoryIndex from handlers.go: diff, short-circuit when nothing
changed, otherwise run the full regenerate. -/
def syncRepositoryIndex (r : Repo) (s : Server) : Server × Option Err :=
  match listObjectsGetDiff s with
  | .error e => (s, some e)
  | .ok (_, diff) =>
    if diff.change then regenerateRepositoryIndex r s else (s, none)

/-- A file extracted from a multipart form field. -/
structure PPFile where
  filename : String
  content : Bytes
  field : String
deriving DecidableEq, Repr

/-- extractAndValidateFormFile from handlers.go: absent field is fine,
derive the filename from content, and when overwrite is disallowed a
successful GetObject on the target filename is a 409 conflict; any GetObject
error is the permission to create. -/
def extractAndValidateFormFile (s : Server) (form : String → Option Bytes) (field : String)
    (fnFromContent : Bytes → Except Err String) : Except (Nat × Err) (Option PPFile) :=
  match form field with
  | none => .ok none
  | some content =>
    match fnFromContent content with
    | .error e => .error (400, e)
    | .ok filename =>
      if s.allowOverwrite then .ok (some ⟨filename, content, field⟩)
      else
        match getObject s.backend filename with
        | .ok _ => .error (409, .other (filename ++ " already exists"))
        | .error _ => .ok (some ⟨filename, content, field⟩)

/-- The extraction loop over the two form field and filename function
pairs. -/
def collectPPFiles (s : Server) (form : String → Option Bytes) :
    List (String × (Bytes → Except Err String)) → Except (Nat × Err) (List PPFile)
  | [] => .ok []
  | (field, fn) :: rest =>
    match extractAndValidateFormFile s form field fn with
    | .error pe => .error pe
    | .ok none => collectPPFiles s form rest
    | .ok (some ppf) =>
      match collectPPFiles s form rest with
      | .error pe => .error pe
      | .ok l => .ok (ppf :: l)

/-- The incremental add done after a successful PutObject of a chart
package in periodic-refresh mode: fetch the object back and add it to cache
and index. The errors of this block are lost in the Go code, because the
short variable declaration inside it shadows the outer err. -/
def afterPut (r : Repo) (s : Server) (ppf : PPFile) : Server :=
  if 0 < s.cacheRefreshPeriod ∧ goHasSuffix ppf.filename chartPackageFileExtension then
    match getObject s.backend ppf.filename with
    | .ok obj => (addChartPackage r s obj).1
    | .error _ => s
  else s

/-- The storage loop of postPackageAndProvenanceRequestHandler. On a
PutObject failure every already stored file is best-effort deleted and the
error is returned as a 500. -/
def storeLoop (r : Repo) (s : Server) (stored : List PPFile) :
    List PPFile → Server × HResp
  | [] => (s, ⟨201, .saved⟩)
  | ppf :: rest =>
    match putObject s.backend ppf.filename ppf.content with
    | .ok b =>
      storeLoop r (afterPut r { s with backend := b } ppf) (stored ++ [ppf]) rest
    | .error e =>
      ({ s with backend := stored.foldl (fun b2 p2 =>
          match deleteObject b2 p2.filename with
          | .ok b3 => b3
          | .error _ => b2) s.backend }, ⟨500, .errMsg e⟩)

/-- postPackageAndProvenanceRequestHandler from handlers.go. -/
def postPackageAndProvenanceRequestHandler (r : Repo) (s : Server)
    (form : String → Option Bytes) : Server × HResp :=
  match collectPPFiles s form
      [(s.chartPostFormFieldName, r.chartPackageFilenameFromContent),
       (s.provPostFormFieldName, r.provenanceFilenameFromContent)] with
  | .error (status, e) => (s, ⟨status, .errMsg e⟩)
  | .ok ppFiles =>
    if ppFiles.isEmpty then
      (s, ⟨400, .errMsg (.other "no package or provenance file found in form fields")⟩)
    else storeLoop r s [] ppFiles

/-- postPackageRequestHandler from handlers.go, the raw upload: on a
conflict it answers 500 with the already-exists body; in periodic-refresh
mode the stored package is fetched back and added, errors of that block
surfacing as 500. -/
def postPackageRequestHandler (r : Repo) (s : Server) (content : Bytes) : Server × HResp :=
  match r.chartPackageFilenameFromContent content with
  | .error e => (s, ⟨500, .errMsg e⟩)
  | .ok filename =>
    if s.allowOverwrite then postPackagePut r s filename content
    else
      match getObject s.backend filename with
      | .ok _ => (s, ⟨500, .alreadyExists⟩)
      | .error _ => postPackagePut r s filename content
where
  /-- The storing tail of the raw upload handler. -/
  postPackagePut (r : Repo) (s : Server) (filename : String) (content : Bytes) :
      Server × HResp :=
    match putObject s.backend filename content with
    | .error e => (s, ⟨500, .errMsg e⟩)
    | .ok b =>
      if 0 < s.cacheRefreshPeriod then
        match getObject b filename with
        | .error e => ({ s with backend := b }, ⟨500, .errMsg e⟩)
        | .ok obj =>
          match addChartPackage r { s with backend := b } obj with
          | (s2, some e) => (s2, ⟨500, .errMsg e⟩)
          | (s2, none) => (s2, ⟨201, .saved⟩)
      else ({ s with backend := b }, ⟨201, .saved⟩)

/-- The incremental removal tail of the delete handler, run only in
periodic-refresh mode. -/
def deleteTail (r : Repo) (s : Server) (name version : String) : Server × HResp :=
  if 0 < s.cacheRefreshPeriod then
    match removeChartPackage r s (chartPackageFilenameFromNameVersion name version) with
    | (s2, some e) => (s2, ⟨500, .errMsg e⟩)
    | (s2, none) => (s2, ⟨200, .deleted⟩)
  else (s, ⟨200, .deleted⟩)

/-- deleteChartVersionRequestHandler from handlers.go: any DeleteObject
error is a 404; the provenance delete error is ignored; only in
periodic-refresh mode is the incremental cache and index removal done. -/
def deleteChartVersionRequestHandler (r : Repo) (s : Server) (name version : String) :
    Server × HResp :=
  match deleteObject s.backend (chartPackageFilenameFromNameVersion name version) with
  | .error _ => (s, ⟨404, .notFoundMsg⟩)
  | .ok b =>
    deleteTail r
      (match deleteObject b (provenanceFilenameFromNameVersion name version) with
       | .ok b2 => { s with backend := b2 }
       | .error _ => { s with backend := b }) name version

/-- getStorageObjectRequestHandler from handlers.go: unknown extension is a
500, any GetObject error is a 404. -/
def getStorageObjectRequestHandler (s : Server) (filename : String) : HResp :=
  if !goHasSuffix filename chartPackageFileExtension &&
     !goHasSuffix filename provenanceFileExtension then ⟨500, .badExtension⟩
  else
    match getObject s.backend filename with
    | .error _ => ⟨404, .notFoundMsg⟩
    | .ok object => ⟨200, .fileData object.content⟩

/-- Invariant I1 of the spec: raw is empty or the serialization of the
current entries. -/
def I1 (i : Index) : Prop :=
  i.raw = [] ∨ i.raw = serializeEntries i.entries

/-- A concrete decoder for concrete runs: contents [1] and [2] decode to
alpha versions, [9] fails with a plain error, and everything else is an
invalid package. -/
def testRepo : Repo where
  chartVersionFromStorageObject := fun o =>
    if o.content = [1] then .ok ⟨"alpha", "1.0"⟩
    else if o.content = [2] then .ok ⟨"alpha", "2.0"⟩
    else if o.content = [9] then .error (.other "boom")
    else .error .invalidChartPackage
  chartPackageFilenameFromContent := fun c =>
    if c = [1] then .ok "alpha-1.0.tgz"
    else if c = [2] then .ok "alpha-2.0.tgz"
    else .error .invalidChartPackage
  provenanceFilenameFromContent := fun c =>
    if c = [7] then .ok "alpha-1.0.tgz.prov" else .error .invalidChartPackage

/-- The alpha 1.0 package object. -/
def obj1 : Object := ⟨"alpha-1.0.tgz", [1], 11⟩

/-- An object whose content decodes with a plain, non invalid, error. -/
def obj9 : Object := ⟨"bad.tgz", [9], 19⟩

/-- An object whose stored content is empty. -/
def objEmpty : Object := ⟨"empty.tgz", [], 3⟩

/-- A backend with the given store and no injected failures. -/
def mkBackend (store : List Object) : Backend :=
  ⟨store, fun _ => none, fun _ => none, fun _ => none, none⟩

/-- The empty index. -/
def emptyIndex : Index := ⟨[], [], ""⟩

/-- A server with the standard form field names. -/
def mkServer (b : Backend) (cache : List Object) (idx : Index) (period : Nat)
    (ov : Bool) : Server :=
  ⟨idx, b, cache, ov, period, "chart", "prov"⟩

/-- A backend whose only object cannot be fetched back: GetObject on it
fails with a transient error. -/
def backend1 : Backend :=
  { store := [obj1],
    getFail := fun p => if p == "alpha-1.0.tgz" then some .transient else none,
    putFail := fun _ => none, delFail := fun _ => none, listFail := none }

/-- A server about to reconcile one added object whose fetch fails. -/
def server1 : Server := mkServer backend1 [] emptyIndex 0 true

/-- A server whose next reconcile sees one removed object that decodes with
a plain error. -/
def server2 : Server := mkServer (mkBackend []) [obj9] emptyIndex 0 true

/-- A server holding alpha 1.0 with overwrite disallowed. -/
def serverEx : Server := mkServer (mkBackend [obj1]) [obj1] emptyIndex 0 false

/-- A form carrying the alpha 1.0 package in the chart field. -/
def form3 : String → Option Bytes := fun f => if f == "chart" then some [1] else none

/-- An empty server in periodic-refresh mode. -/
def tickServer : Server := mkServer (mkBackend []) [] emptyIndex 5 true

/-- A backend that rejects the provenance upload with a transient error. -/
def backend6 : Backend :=
  { store := [],
    getFail := fun _ => none,
    putFail := fun p => if p == "alpha-1.0.tgz.prov" then some .transient else none,
    delFail := fun _ => none, listFail := none }

/-- A refresh-on-read server over backend6. -/
def server6 : Server := mkServer backend6 [] emptyIndex 0 true

/-- A periodic-refresh server over backend6. -/
def server6t : Server := mkServer backend6 [] emptyIndex 5 true

/-- A form carrying both the package and its provenance file. -/
def form6 : String → Option Bytes := fun f =>
  if f == "chart" then some [1] else if f == "prov" then some [7] else none

/-- backend6 after the successful package store. -/
def backend6one : Backend :=
  { backend6 with store := putStore backend6.store ⟨"alpha-1.0.tgz", [1], hashBytes [1]⟩ }

/-- A cold server whose backend holds one decodable package. -/
def server7 : Server := mkServer (mkBackend [obj1]) [] emptyIndex 0 true

/-- server7 after its first successful reconcile. -/
def server7After : Server := (regenerateRepositoryIndex testRepo server7).1

/-- The alpha 1.0 chart version. -/
def cvA1 : ChartVersion := ⟨"alpha", "1.0"⟩

/-- An index holding exactly alpha 1.0. -/
def index8 : Index := ⟨[("alpha", [cvA1])], [], ""⟩

/-- A refresh-on-read server holding alpha 1.0 in storage, cache and
index. -/
def server8 : Server := mkServer (mkBackend [obj1]) [obj1] index8 0 true

/-- The periodic-refresh variant of server8. -/
def server8t : Server := mkServer (mkBackend [obj1]) [obj1] index8 5 true

/-- A backend whose GetObject on a.tgz fails with a transient error. -/
def backend9 : Backend :=
  { store := [], getFail := fun p => if p == "a.tgz" then some .transient else none,
    putFail := fun _ => none, delFail := fun _ => none, listFail := none }

/-- A server over backend9. -/
def server9 : Server := mkServer backend9 [] emptyIndex 0 true

/-- A server whose backend holds one object with empty content. -/
def serverE : Server := mkServer (mkBackend [objEmpty]) [] emptyIndex 0 true

end CM

deriving instance DecidableEq for Except

namespace CM

theorem regenerate_error_state {r : Repo} {s s2 : Server} {e : Err}
    (h : regenerateRepositoryIndex r s = (s2, some e)) : s2 = s := by
  unfold regenerateRepositoryIndex at h
  repeat' split at h
  all_goals simp_all

theorem listObjects_ok {b : Backend} {l : List Object} (h : listObjects b = .ok l) :
    l = b.store := by
  unfold listObjects at h
  split at h <;> simp_all

theorem regenerate_success_state {r : Repo} {s s2 : Server}
    (h : regenerateRepositoryIndex r s = (s2, none)) :
    s2.backend = s.backend ∧ s2.cacheRefreshPeriod = s.cacheRefreshPeriod ∧
    ∃ store, listObjects s.backend = .ok store ∧
      s2.storageCache = store.filter (fun o => hasExtension o chartPackageFileExtension) := by
  unfold regenerateRepositoryIndex at h
  split at h
  · simp_all
  case _ objects diff heq =>
    unfold listObjectsGetDiff at heq
    split at heq
    · simp_all
    case _ allObjects heq2 =>
      repeat' split at h
      · simp_all
      · simp_all
      · simp_all
      case _ =>
        have h1 := congrArg Prod.fst h
        simp only at h1
        subst h1
        refine ⟨rfl, rfl, allObjects, heq2, ?_⟩
        simp only [Except.ok.injEq, Prod.mk.injEq] at heq
        exact heq.1.symm

/-- C1: behaviour of the code at the failing input: with one added object
whose fetch fails with a transient error, the async load does not fail the
batch and the whole reconcile succeeds, silently omitting the object. -/
theorem c1_async_error_lost :
    addIndexObjectsAsync testRepo server1 emptyIndex [obj1] = .ok emptyIndex ∧
    (regenerateRepositoryIndex testRepo server1).2 = none ∧
    (regenerateRepositoryIndex testRepo server1).1.repositoryIndex.entries = [] := by
  decide

/-- C2: a reconcile that fails, at listing or at any later step, returns
the server exactly as it was: published index, storage cache and backend
untouched. -/
theorem c2_reconcile_failure_keeps_state (r : Repo) (s : Server) :
    (∀ s2 e, regenerateRepositoryIndex r s = (s2, some e) → s2 = s) ∧
    (∀ s2 e, syncRepositoryIndex r s = (s2, some e) → s2 = s) := by
  refine ⟨fun s2 e h => regenerate_error_state h, fun s2 e h => ?_⟩
  unfold syncRepositoryIndex at h
  split at h
  · simp_all
  · split at h
    · exact regenerate_error_state h
    · simp_all

theorem c2_witness : (regenerateRepositoryIndex testRepo server2).1 = server2 :=
  (c2_reconcile_failure_keeps_state testRepo server2).1
    (regenerateRepositoryIndex testRepo server2).1 (Err.other "boom") rfl

theorem diff_self_no_change (l : List Object) (hnd : (l.map Object.path).Nodup) :
    getObjectSliceDiff l l = ⟨false, [], [], []⟩ := by
  have hrem : l.filter (fun o => !(l.any (fun n => n.path == o.path))) = [] := by
    rw [List.filter_eq_nil_iff]
    intro o ho
    have hany : l.any (fun n => n.path == o.path) = true :=
      List.any_eq_true.mpr ⟨o, ho, by simp⟩
    simp [hany]
  have hupd : l.filter (fun n =>
      match l.find? (fun o => o.path == n.path) with
      | some o => !(o.meta == n.meta)
      | none => false) = [] := by
    rw [List.filter_eq_nil_iff]
    intro n hn
    cases hf : l.find? (fun o => o.path == n.path) with
    | none =>
      simp
    | some m =>
      have hmm : m ∈ l := List.mem_of_find?_eq_some hf
      have hpath := List.find?_some hf
      have hmn : m = n :=
        List.inj_on_of_nodup_map hnd hmm hn (by simpa using hpath)
      subst hmn
      simp [hf]
  unfold getObjectSliceDiff
  simp only [hrem, hupd]
  rfl

/-- C7: after a successful reconcile with no backend mutation in between,
the next diff reports no change and the refresh-on-read path returns with
no mutation of the index or the storage cache. -/
theorem c7_steady_state (r : Repo) (s s2 : Server)
    (hnd : (s.backend.store.map Object.path).Nodup)
    (h : regenerateRepositoryIndex r s = (s2, none)) :
    (∃ diff, listObjectsGetDiff s2 = .ok (s2.storageCache, diff) ∧ diff.change = false) ∧
    syncRepositoryIndex r s2 = (s2, none) := by
  obtain ⟨hb, hp, store, hlist, hcache⟩ := regenerate_success_state h
  have hstore : store = s.backend.store := listObjects_ok hlist
  subst hstore
  have hnd2 : ((s.backend.store.filter
      (fun o => hasExtension o chartPackageFileExtension)).map Object.path).Nodup :=
    hnd.sublist ((List.filter_sublist s.backend.store).map Object.path)
  have hdiff : getObjectSliceDiff
      (s.backend.store.filter (fun o => hasExtension o chartPackageFileExtension))
      (s.backend.store.filter (fun o => hasExtension o chartPackageFileExtension)) =
      ⟨false, [], [], []⟩ := diff_self_no_change _ hnd2
  have hld : listObjectsGetDiff s2 = .ok (s2.storageCache, ⟨false, [], [], []⟩) := by
    unfold listObjectsGetDiff
    rw [hb, hlist]
    simp only [hcache, hdiff]
  refine ⟨⟨⟨false, [], [], []⟩, hld, rfl⟩, ?_⟩
  unfold syncRepositoryIndex
  rw [hld]
  simp

theorem c7_witness :
    ((∃ diff, listObjectsGetDiff server7After = .ok (server7After.storageCache, diff) ∧
        diff.change = false) ∧
      syncRepositoryIndex testRepo server7After = (server7After, none)) :=
  c7_steady_state testRepo server7 server7After (by decide) rfl

theorem addEntry_raw (i : Index) (cv : ChartVersion) : (i.addEntry cv).raw = [] := by
  unfold Index.addEntry
  split <;> rfl

theorem removeIndexObject_ok {r : Repo} {s : Server} {i idx : Index} {o : Object}
    (h : removeIndexObject r s i o = .ok idx) :
    idx = i ∨ ∃ cv, idx = i.removeEntry cv := by
  unfold removeIndexObject at h
  split at h
  · split at h
    · exact Or.inl (by simp_all)
    · simp_all
  case _ cv heq =>
    exact Or.inr ⟨cv, by simp_all⟩

/-- C4 counterexample: on a decode error the appended object stays in the
storage cache, so the cache differs from its pre-call value. -/
theorem c4_counterexample :
    (addChartPackage testRepo tickServer obj9).2 = some (Err.other "boom") ∧
    (addChartPackage testRepo tickServer obj9).1.storageCache ≠ tickServer.storageCache := by
  decide

/-- C4 amended: when AddArtifact returns an error, the server keeps the
object appended to the storage cache, the index untouched: the cache append
is not reverted. -/
theorem c4_no_revert (r : Repo) (s : Server) (o : Object) (e : Err)
    (h : (addChartPackage r s o).2 = some e) :
    (addChartPackage r s o).1 = { s with storageCache := s.storageCache ++ [o] } := by
  unfold addChartPackage at h ⊢
  split at h
  · split at h
    · simp_all
    · simp_all
  · simp_all

theorem c4_witness :
    (addChartPackage testRepo tickServer obj9).1 =
      { tickServer with storageCache := tickServer.storageCache ++ [obj9] } :=
  c4_no_revert testRepo tickServer obj9 (Err.other "boom") (by decide)

/-- C5 counterexample: a successful raw upload in periodic-refresh mode
releases the lock with raw empty while the entries are not, so raw is not
the serialization of the entries: Regenerate was not called. -/
theorem c5_counterexample :
    (postPackageRequestHandler testRepo tickServer [1]).2 = ⟨201, .saved⟩ ∧
    (postPackageRequestHandler testRepo tickServer [1]).1.repositoryIndex.raw = [] ∧
    (postPackageRequestHandler testRepo tickServer [1]).1.repositoryIndex.entries ≠ [] ∧
    (postPackageRequestHandler testRepo tickServer [1]).1.repositoryIndex.raw ≠
      serializeEntries
        (postPackageRequestHandler testRepo tickServer [1]).1.repositoryIndex.entries := by
  decide

theorem removeChartPackage_i1 {r : Repo} {s s2 : Server} {filename : String}
    (hI : I1 s.repositoryIndex)
    (h : removeChartPackage r s filename = (s2, none)) :
    I1 s2.repositoryIndex := by
  unfold removeChartPackage at h
  split at h
  · simp_all
  case _ obj hfind =>
    split at h
    · simp_all
    case _ idx hrio =>
      simp only [Prod.mk.injEq] at h
      obtain ⟨hs2, -⟩ := h
      subst hs2
      rcases removeIndexObject_ok hrio with hidx | ⟨cv, hidx⟩
      · subst hidx
        exact hI
      · subst hidx
        exact Or.inl rfl

theorem deleteTail_i1 {r : Repo} {s s2 : Server} {resp : HResp} {name version : String}
    (hI : I1 s.repositoryIndex)
    (h : deleteTail r s name version = (s2, resp))
    (h200 : resp.status = 200) : I1 s2.repositoryIndex := by
  unfold deleteTail at h
  split at h
  · split at h
    case _ s3 e heq2 =>
      simp only [Prod.mk.injEq] at h
      obtain ⟨-, hresp⟩ := h
      subst hresp
      simp at h200
    case _ s3 heq2 =>
      simp only [Prod.mk.injEq] at h
      obtain ⟨hs2, -⟩ := h
      subst hs2
      exact removeChartPackage_i1 hI heq2
  · simp only [Prod.mk.injEq] at h
    obtain ⟨hs2, -⟩ := h
    subst hs2
    exact hI

/-- C5 amended: the successful incremental mutations leave I1 valid, but by
clearing raw to empty (AddEntry and RemoveEntry both clear it), deferring
regeneration to the next reconcile, not by calling Regenerate before the
lock is released. -/
theorem c5_i1_preserved (r : Repo) (s : Server) (hI : I1 s.repositoryIndex) :
    (∀ o : Object, (addChartPackage r s o).2 = none →
      I1 (addChartPackage r s o).1.repositoryIndex) ∧
    (∀ name version, 0 < s.cacheRefreshPeriod →
      (deleteChartVersionRequestHandler r s name version).2.status = 200 →
      I1 (deleteChartVersionRequestHandler r s name version).1.repositoryIndex) := by
  constructor
  · intro o hnone
    unfold addChartPackage at hnone ⊢
    split at hnone
    case _ e heq =>
      split at hnone
      case _ hci => exact hI
      case _ e2 hci => simp at hnone
    case _ cv heq =>
      exact Or.inl (addEntry_raw s.repositoryIndex cv)
  · intro name version hp h200
    cases hres : deleteChartVersionRequestHandler r s name version with
    | mk s2 resp =>
      rw [hres] at h200
      unfold deleteChartVersionRequestHandler at hres
      split at hres
      · simp only [Prod.mk.injEq] at hres
        obtain ⟨-, hresp⟩ := hres
        subst hresp
        simp at h200
      case _ b heq =>
        exact deleteTail_i1 (by split <;> exact hI) hres h200

theorem c5_witness :
    I1 (addChartPackage testRepo tickServer obj1).1.repositoryIndex :=
  (c5_i1_preserved testRepo tickServer (Or.inl rfl)).1 obj1 (by decide)

end CM

namespace CM

/-- C9 counterexample: a transient GetObject failure during get object is
answered 404, not 500. -/
theorem c9_counterexample :
    backend9.getFail "a.tgz" = some .transient ∧
    getStorageObjectRequestHandler server9 "a.tgz" = ⟨404, .notFoundMsg⟩ ∧
    (getStorageObjectRequestHandler server9 "a.tgz").status ≠ 500 := by
  decide

/-- C9 amended: any backend error in the get object and delete version
paths, NotFound or transient alike, aborts the operation and is surfaced as
404; the handlers never distinguish the error kind there. -/
theorem c9_backend_error_404 (r : Repo) (s : Server) (filename name version : String) :
    (∀ e, goHasSuffix filename chartPackageFileExtension = true →
      getObject s.backend filename = .error e →
      getStorageObjectRequestHandler s filename = ⟨404, .notFoundMsg⟩) ∧
    (∀ e, deleteObject s.backend (chartPackageFilenameFromNameVersion name version) =
        .error e →
      deleteChartVersionRequestHandler r s name version = (s, ⟨404, .notFoundMsg⟩)) := by
  constructor
  · intro e hsuf herr
    unfold getStorageObjectRequestHandler
    rw [hsuf, herr]
    simp
  · intro e herr
    unfold deleteChartVersionRequestHandler
    rw [herr]

theorem c9_witness :
    getStorageObjectRequestHandler server9 "a.tgz" = ⟨404, .notFoundMsg⟩ :=
  (c9_backend_error_404 testRepo server9 "a.tgz" "alpha" "1.0").1 Err.transient
    (by decide) (by decide)

/-- C10: a re-fetched object whose content comes back empty is classified
as an invalid package: the loader leaves a null slot and the updated path
skips it, neither failing the reconcile. -/
theorem c10_empty_content_invalid (r : Repo) (s : Server) (o obj : Object) (idx : Index)
    (hget : getObject s.backend o.path = .ok obj) (hlen : obj.content = []) :
    getObjectChartVersion r s o true = .error .invalidChartPackage ∧
    updateIndexObject r s idx o = .ok idx ∧
    addIndexObjectsAsync r s idx [o] = .ok idx := by
  have hgcv : getObjectChartVersion r s o true = .error .invalidChartPackage := by
    simp [getObjectChartVersion, hget, hlen]
  refine ⟨hgcv, ?_, ?_⟩
  · simp [updateIndexObject, hgcv, checkInvalidChartPackageError]
  · simp [addIndexObjectsAsync, hgcv]

theorem c10_witness :
    getObjectChartVersion testRepo serverE objEmpty true = .error .invalidChartPackage ∧
    updateIndexObject testRepo serverE emptyIndex objEmpty = .ok emptyIndex ∧
    addIndexObjectsAsync testRepo serverE emptyIndex [objEmpty] = .ok emptyIndex :=
  c10_empty_content_invalid testRepo serverE objEmpty objEmpty emptyIndex (by decide) rfl

/-- C3 counterexample: with overwrite disallowed and the target filename
present in storage, the raw upload answers 500 with the already-exists
body, not 409. -/
theorem c3_counterexample :
    getObject serverEx.backend "alpha-1.0.tgz" = .ok obj1 ∧
    (postPackageRequestHandler testRepo serverEx [1]).2 = ⟨500, .alreadyExists⟩ ∧
    (postPackageRequestHandler testRepo serverEx [1]).2.status ≠ 409 := by
  decide

/-- C3 amended: with overwrite disallowed, the multipart path answers 409
exactly when GetObject on the target filename succeeds, any GetObject error
letting the create proceed; the raw path answers the conflict with 500 and
the already-exists body, never 409. -/
theorem c3_conflict_rule (r : Repo) (s : Server) (form : String → Option Bytes)
    (field : String) (fn : Bytes → Except Err String) (content : Bytes) (filename : String)
    (hov : s.allowOverwrite = false)
    (hform : form field = some content) (hfn : fn content = .ok filename)
    (hraw : r.chartPackageFilenameFromContent content = .ok filename) :
    ((∀ o, getObject s.backend filename = .ok o →
        extractAndValidateFormFile s form field fn =
          .error (409, .other (filename ++ " already exists"))) ∧
      (∀ e, getObject s.backend filename = .error e →
        extractAndValidateFormFile s form field fn = .ok (some ⟨filename, content, field⟩))) ∧
    ((∀ o, getObject s.backend filename = .ok o →
        postPackageRequestHandler r s content = (s, ⟨500, .alreadyExists⟩)) ∧
      (∀ e, getObject s.backend filename = .error e →
        (postPackageRequestHandler r s content).2.body ≠ .alreadyExists)) := by
  refine ⟨⟨?_, ?_⟩, ?_, ?_⟩
  · intro o hok
    simp [extractAndValidateFormFile, hform, hfn, hov, hok]
  · intro e herr
    simp [extractAndValidateFormFile, hform, hfn, hov, herr]
  · intro o hok
    simp [postPackageRequestHandler, hraw, hov, hok]
  · intro e herr
    simp only [postPackageRequestHandler, hraw, hov, herr]
    rw [if_neg (by simp)]
    unfold postPackageRequestHandler.postPackagePut
    split
    · simp
    · split
      · split
        · simp
        · split <;> simp
      · simp

theorem c3_witness :
    extractAndValidateFormFile serverEx form3 "chart"
      testRepo.chartPackageFilenameFromContent =
      .error (409, .other ("alpha-1.0.tgz" ++ " already exists")) :=
  ((c3_conflict_rule testRepo serverEx form3 "chart"
      testRepo.chartPackageFilenameFromContent [1] "alpha-1.0.tgz"
      rfl rfl (by decide) (by decide)).1.1) obj1 (by decide)

end CM


namespace CM

theorem any_path_filter_self (l : List Object) (pa : String) :
    (l.filter (fun o => !(o.path == pa))).any (fun o => o.path == pa) = false := by
  rw [← Bool.not_eq_true]
  intro hc
  rw [List.any_eq_true] at hc
  obtain ⟨x, hx, hpx⟩ := hc
  have h2 := (List.mem_filter.mp hx).2
  rw [hpx] at h2
  simp at h2

theorem any_false_of_filter (l : List Object) (q p : Object → Bool)
    (h : l.any p = false) : (l.filter q).any p = false := by
  rw [← Bool.not_eq_true] at h ⊢
  intro hc
  apply h
  rw [List.any_eq_true] at hc ⊢
  obtain ⟨x, hx, hpx⟩ := hc
  exact ⟨x, (List.mem_filter.mp hx).1, hpx⟩

theorem deleteObject_ok_shape {b : Backend} {p : String} {b2 : Backend}
    (h : deleteObject b p = .ok b2) :
    b2 = { b with store := b.store.filter (fun o => !(o.path == p)) } := by
  unfold deleteObject at h
  split at h
  · simp_all
  · split at h
    · simp_all
    · simp_all

theorem deleteObject_absent {b : Backend} {p : String}
    (hdf : b.delFail p = none)
    (habs : b.store.any (fun o => o.path == p) = false) :
    deleteObject b p = .error .notFound := by
  simp [deleteObject, hdf, habs]

theorem removeChartPackage_ok_shape {r : Repo} {s : Server} {filename : String}
    {obj : Object} {cv : ChartVersion}
    (hfind : s.storageCache.find? (fun o => o.path == filename) = some obj)
    (hdec : r.chartVersionFromStorageObject obj = .ok cv) :
    removeChartPackage r s filename =
      ({ s with repositoryIndex := s.repositoryIndex.removeEntry cv,
                storageCache := removeFirstByPath s.storageCache filename }, none) := by
  simp [removeChartPackage, hfind, removeIndexObject, getObjectChartVersion, hdec]

/-- C8 counterexample: in refresh-on-read mode the delete handler answers
200 without removing the version from the index entries. -/
theorem c8_counterexample :
    (deleteChartVersionRequestHandler testRepo server8 "alpha" "1.0").2 = ⟨200, .deleted⟩ ∧
    (deleteChartVersionRequestHandler testRepo server8 "alpha" "1.0").1.repositoryIndex =
      index8 ∧
    index8.entries ≠ [] := by
  decide

/-- C8 amended: in periodic-refresh mode, a delete of an existing package
removes the package file from storage, best-effort removes the provenance
file, removes the version from the index and the cache, answers 200, and a
second delete of the same name and version answers 404; in refresh-on-read
mode the index update is deferred to the next read. -/
theorem c8_delete_path (r : Repo) (s : Server) (name version : String) (obj : Object)
    (cv : ChartVersion)
    (hmode : 0 < s.cacheRefreshPeriod)
    (hdelp : s.backend.delFail (chartPackageFilenameFromNameVersion name version) = none)
    (hex : s.backend.store.any
      (fun o => o.path == chartPackageFilenameFromNameVersion name version) = true)
    (hfind : s.storageCache.find?
      (fun o => o.path == chartPackageFilenameFromNameVersion name version) = some obj)
    (hdec : r.chartVersionFromStorageObject obj = .ok cv) :
    (deleteChartVersionRequestHandler r s name version).2 = ⟨200, .deleted⟩ ∧
    (deleteChartVersionRequestHandler r s name version).1.repositoryIndex =
      s.repositoryIndex.removeEntry cv ∧
    (deleteChartVersionRequestHandler r s name version).1.storageCache =
      removeFirstByPath s.storageCache (chartPackageFilenameFromNameVersion name version) ∧
    (deleteChartVersionRequestHandler r s name version).1.backend.store.any
      (fun o => o.path == chartPackageFilenameFromNameVersion name version) = false ∧
    (deleteChartVersionRequestHandler r
        (deleteChartVersionRequestHandler r s name version).1 name version).2 =
      ⟨404, .notFoundMsg⟩ := by
  have hdel1 : deleteObject s.backend (chartPackageFilenameFromNameVersion name version) =
      .ok { s.backend with
        store := (s.backend.store.filter
          (fun o => !(o.path == chartPackageFilenameFromNameVersion name version))) } := by
    simp [deleteObject, hdelp, hex]
  cases hprov : deleteObject
      { s.backend with
        store := (s.backend.store.filter
          (fun o => !(o.path == chartPackageFilenameFromNameVersion name version))) }
      (provenanceFilenameFromNameVersion name version) with
  | ok b2 =>
    have hb2 := deleteObject_ok_shape hprov
    have hrm : removeChartPackage r { s with backend := b2 }
        (chartPackageFilenameFromNameVersion name version) =
        ({ s with
            backend := b2,
            repositoryIndex := s.repositoryIndex.removeEntry cv,
            storageCache := (removeFirstByPath s.storageCache
              (chartPackageFilenameFromNameVersion name version)) }, none) :=
      removeChartPackage_ok_shape hfind hdec
    have hmain : deleteChartVersionRequestHandler r s name version =
        ({ s with
            backend := b2,
            repositoryIndex := s.repositoryIndex.removeEntry cv,
            storageCache := (removeFirstByPath s.storageCache
              (chartPackageFilenameFromNameVersion name version)) }, ⟨200, .deleted⟩) := by
      simp only [deleteChartVersionRequestHandler, hdel1, hprov, deleteTail, hmode,
        if_true, hrm]
    have habs : b2.store.any
        (fun o => o.path == chartPackageFilenameFromNameVersion name version) = false := by
      rw [hb2]
      exact any_false_of_filter _ _ _ (any_path_filter_self _ _)
    have hdf2 : b2.delFail (chartPackageFilenameFromNameVersion name version) = none := by
      rw [hb2]
      exact hdelp
    refine ⟨by rw [hmain], by rw [hmain], by rw [hmain], by rw [hmain]; exact habs, ?_⟩
    rw [hmain]
    have hdabs := deleteObject_absent hdf2 habs
    simp only [deleteChartVersionRequestHandler, hdabs]
  | error a =>
    have hrm : removeChartPackage r
        { s with backend := { s.backend with
          store := (s.backend.store.filter
            (fun o => !(o.path == chartPackageFilenameFromNameVersion name version))) } }
        (chartPackageFilenameFromNameVersion name version) =
        ({ s with
            backend := { s.backend with
              store := (s.backend.store.filter
                (fun o => !(o.path == chartPackageFilenameFromNameVersion name version))) },
            repositoryIndex := s.repositoryIndex.removeEntry cv,
            storageCache := (removeFirstByPath s.storageCache
              (chartPackageFilenameFromNameVersion name version)) }, none) :=
      removeChartPackage_ok_shape hfind hdec
    have hmain : deleteChartVersionRequestHandler r s name version =
        ({ s with
            backend := { s.backend with
              store := (s.backend.store.filter
                (fun o => !(o.path == chartPackageFilenameFromNameVersion name version))) },
            repositoryIndex := s.repositoryIndex.removeEntry cv,
            storageCache := (removeFirstByPath s.storageCache
              (chartPackageFilenameFromNameVersion name version)) }, ⟨200, .deleted⟩) := by
      simp only [deleteChartVersionRequestHandler, hdel1, hprov, deleteTail, hmode,
        if_true, hrm]
    have habs : (s.backend.store.filter
        (fun o => !(o.path == chartPackageFilenameFromNameVersion name version))).any
        (fun o => o.path == chartPackageFilenameFromNameVersion name version) = false :=
      any_path_filter_self _ _
    refine ⟨by rw [hmain], by rw [hmain], by rw [hmain], by rw [hmain]; exact habs, ?_⟩
    rw [hmain]
    have hdfbb : ({ s.backend with
        store := (s.backend.store.filter
          (fun o => !(o.path == chartPackageFilenameFromNameVersion name version))) } :
        Backend).delFail (chartPackageFilenameFromNameVersion name version) = none := hdelp
    have hdabs := deleteObject_absent hdfbb habs
    simp only [deleteChartVersionRequestHandler, hdabs]

theorem c8_witness :
    (deleteChartVersionRequestHandler testRepo server8t "alpha" "1.0").2 = ⟨200, .deleted⟩ ∧
    (deleteChartVersionRequestHandler testRepo server8t "alpha" "1.0").1.repositoryIndex =
      server8t.repositoryIndex.removeEntry cvA1 ∧
    (deleteChartVersionRequestHandler testRepo server8t "alpha" "1.0").1.storageCache =
      removeFirstByPath server8t.storageCache
        (chartPackageFilenameFromNameVersion "alpha" "1.0") ∧
    (deleteChartVersionRequestHandler testRepo server8t "alpha" "1.0").1.backend.store.any
      (fun o => o.path == chartPackageFilenameFromNameVersion "alpha" "1.0") = false ∧
    (deleteChartVersionRequestHandler testRepo
        (deleteChartVersionRequestHandler testRepo server8t "alpha" "1.0").1
        "alpha" "1.0").2 = ⟨404, .notFoundMsg⟩ :=
  c8_delete_path testRepo server8t "alpha" "1.0" obj1 cvA1 (by decide) (by decide)
    (by decide) (by decide) (by decide)

end CM

namespace CM

/-- C6 counterexample: in periodic-refresh mode, when the provenance store
fails after the package store, the response is 500 and the cleanup removes
the stored package file, but the index keeps the entry that the incremental
add already inserted: the index is not unchanged. -/
theorem c6_counterexample :
    (postPackageAndProvenanceRequestHandler testRepo server6t form6).2.status = 500 ∧
    (postPackageAndProvenanceRequestHandler
        testRepo server6t form6).1.repositoryIndex.entries ≠
      server6t.repositoryIndex.entries ∧
    (postPackageAndProvenanceRequestHandler testRepo server6t form6).1.backend.store = [] := by
  decide

/-- C6 amended: in refresh-on-read mode, when the second PutObject of a
package and provenance upload fails, the already stored first file is
best-effort deleted (a failed cleanup leaves it), the request answers 500
with the error, and index and cache are unchanged; in periodic-refresh mode
the index entry already added for the package is not reverted. -/
theorem c6_partial_multipart (r : Repo) (s : Server) (form : String → Option Bytes)
    (c1 c2 : Bytes) (f1 f2 : String) (b1 : Backend) (e : Err)
    (hmode : s.cacheRefreshPeriod = 0)
    (hform1 : form s.chartPostFormFieldName = some c1)
    (hform2 : form s.provPostFormFieldName = some c2)
    (hfn1 : r.chartPackageFilenameFromContent c1 = .ok f1)
    (hfn2 : r.provenanceFilenameFromContent c2 = .ok f2)
    (hov : s.allowOverwrite = true)
    (hput1 : putObject s.backend f1 c1 = .ok b1)
    (hput2 : putObject b1 f2 c2 = .error e) :
    postPackageAndProvenanceRequestHandler r s form =
      ({ s with
          backend :=
            (match deleteObject b1 f1 with
             | .ok b2 => b2
             | .error _ => b1) }, ⟨500, .errMsg e⟩) := by
  have hcol : collectPPFiles s form
      [(s.chartPostFormFieldName, r.chartPackageFilenameFromContent),
       (s.provPostFormFieldName, r.provenanceFilenameFromContent)] =
      .ok [⟨f1, c1, s.chartPostFormFieldName⟩, ⟨f2, c2, s.provPostFormFieldName⟩] := by
    simp [collectPPFiles, extractAndValidateFormFile, hform1, hform2, hfn1, hfn2, hov]
  simp [postPackageAndProvenanceRequestHandler, hcol, storeLoop, afterPut, hmode,
    hput1, hput2]

theorem c6_witness :
    postPackageAndProvenanceRequestHandler testRepo server6 form6 =
      ({ server6 with
          backend :=
            (match deleteObject backend6one "alpha-1.0.tgz" with
             | .ok b2 => b2
             | .error _ => backend6one) }, ⟨500, .errMsg .transient⟩) :=
  c6_partial_multipart testRepo server6 form6 [1] [7] "alpha-1.0.tgz" "alpha-1.0.tgz.prov"
    backend6one .transient rfl rfl rfl rfl rfl rfl rfl rfl

end CM
